import Mathlib

/-!
Verification of the pi-digits range-read service and its client-side
prefetch protocol (source: src/src/index.ts).

Server side: `getPiDigits` performs one clamped range read against the
object store; the `/pi` endpoint validates query parameters and maps the
read outcome to an HTTP response.

Client side: the inline script of the root route maintains a prefetch
buffer filled by up to ten concurrent fetch tasks; we model it as a
small-step transition system over `ClientState`, with fetch completions,
drains (`addDigitsToDisplay`), the deferred re-prefetch callback, and the
periodic refill check as the possible events.
-/

namespace PiApp

/-- `MAX_RANGE`: the server clamps every range read to at most this many
bytes (`safeLength = Math.min(length, 100_000)` in `getPiDigits`). -/
def MAX_RANGE : Nat := 100000

/-- Modelled from the spec: the Object Store collaborator (an R2 bucket)
is external to the repository.  Per the spec's Object Store contract it
either holds the backing object (`present seq`, a range read returns the
bytes of `[offset, offset+length)` clipped at the object's end), or the
object is absent (`get` returns null), or the read fails with an I/O
error (`get` throws). -/
inductive StoreState where
  | absent : StoreState
  | ioError : StoreState
  | present : List Char → StoreState
deriving DecidableEq

/-- Outcome of `getPiDigits`: the value returned to the route handler
(`none` models the JS `null`), together with the list of range reads
issued against the store, each recorded as (offset, length). -/
structure FetchOutcome where
  result : Option (List Char)
  reads : List (Nat × Int)
deriving DecidableEq

/-- `getPiDigits(env, start, length)`: clamps `length` to `MAX_RANGE`,
performs exactly one range read, and returns the slice text; both the
object-missing branch and the catch branch return `null`. -/
def getPiDigits (store : StoreState) (start : Nat) (length : Int) : FetchOutcome :=
  let safeLength : Int := min length (MAX_RANGE : Int)
  match store with
  | .ioError => ⟨none, [(start, safeLength)]⟩
  | .absent => ⟨none, [(start, safeLength)]⟩
  | .present seq => ⟨some ((seq.drop start).take safeLength.toNat), [(start, safeLength)]⟩

/-- HTTP response of the `/pi` endpoint, abstracting status codes:
`ok body` is 200 with the slice, `badRequest` is the 400 "Invalid query"
response, `notFound` is the 404 response. -/
inductive PiResponse where
  | ok : List Char → PiResponse
  | badRequest : PiResponse
  | notFound : PiResponse
deriving DecidableEq

/-- The `/pi` route handler.  Query parameters arrive already parsed by
`parseInt`; `none` models `NaN` (a missing parameter defaults to a
numeric string before parsing, so it arrives as `some`).  Validation
rejects NaN, `start < 0` and `length > 100_000`; otherwise the handler
calls `getPiDigits` and returns 404 whenever the result is falsy in JS,
i.e. when it is `null` or the empty string.  The second component is the
list of store reads performed while serving the request. -/
def handlePi (store : StoreState) (start length : Option Int) :
    PiResponse × List (Nat × Int) :=
  match start, length with
  | some st, some len =>
    if st < 0 ∨ len > (MAX_RANGE : Int) then (.badRequest, [])
    else
      let out := getPiDigits store st.toNat len
      match out.result with
      | none => (.notFound, out.reads)
      | some d => if d.isEmpty then (.notFound, out.reads) else (.ok d, out.reads)
  | _, _ => (.badRequest, [])

/-! ## Client-side prefetch protocol -/

/-- `chunkSize` in the client script. -/
def chunkSize : Nat := 100000

/-- `prefetchThreshold` in the client script: the number of concurrent
fetch tasks per prefetch round. -/
def prefetchThreshold : Nat := 10

/-- One in-flight range request issued by the client: its `start` offset
and requested length. -/
structure FetchTask where
  pos : Nat
  len : Nat
deriving DecidableEq

/-- The current prefetch round: the tasks whose responses have not yet
arrived, and the total number of bytes contributed to the buffer by the
tasks of this round that have already completed (the running sum that
`Promise.all` will deliver as `totalFetched`). -/
structure Batch where
  pending : List FetchTask
  fetchedSoFar : Nat
deriving DecidableEq

/-- Client session state: the script's variables plus the bookkeeping
needed to express the protocol (`batch` for the in-flight round,
`rescheduled` for a pending `setTimeout(startPrefetching, 0)`, ghost
fields `issued` and `displayed` recording every task ever issued and the
text appended to the page). -/
structure ClientState where
  currentPosition : Nat
  nextFetchPosition : Nat
  prefetchedDigits : List Char
  hasMoreDigits : Bool
  queueLen : Nat
  batch : Option Batch
  rescheduled : Bool
  issued : List FetchTask
  displayed : List Char
deriving DecidableEq

/-- Response delivered to one fetch task: the HTTP body text on success,
or `err` for a rejected/non-ok fetch (network failure, non-2xx status). -/
inductive Resp where
  | ok : List Char → Resp
  | err : Resp
deriving DecidableEq

/-- What the server actually answers for a range request at `pos` of
length `len` when the backing sequence is `seq`: the clamped slice
(`getPiDigits` with a present store). -/
def serverSlice (seq : List Char) (pos len : Nat) : List Char :=
  (seq.drop pos).take (min len MAX_RANGE)

/-- Admissible responses for a task: a fetch may always fail (`err`
covers network errors and the endpoint's non-200 statuses), and a
successful response carries exactly the clamped slice the Range Service
serves for that task's range. -/
def RealisticResp (seq : List Char) (t : FetchTask) : Resp → Prop
  | .err => True
  | .ok d => d = serverSlice seq t.pos t.len

instance (seq : List Char) (t : FetchTask) : (r : Resp) → Decidable (RealisticResp seq t r)
  | .err => .isTrue trivial
  | .ok d => inferInstanceAs (Decidable (d = serverSlice seq t.pos t.len))

/-- `fetchMoreDigits`' handling of a settled fetch, as a function of the
current `hasMoreDigits` flag: an error is caught and yields the empty
string; an empty body sets `hasMoreDigits := false`; otherwise the body
is returned.  The result is (returned digits, new `hasMoreDigits`). -/
def fetchMoreDigits (hasMore : Bool) : Resp → List Char × Bool
  | .err => ([], hasMore)
  | .ok d => if d.isEmpty then ([], false) else (d, hasMore)

/-- `startPrefetching`: resets `prefetchQueue` and synchronously issues
`prefetchThreshold` tasks of `chunkSize` bytes at consecutive offsets
starting at `nextFetchPosition` (which it does not modify).  The queue
length becomes `prefetchThreshold` and is never decremented anywhere. -/
def startPrefetching (s : ClientState) : ClientState :=
  let ts := (List.range prefetchThreshold).map
    fun i => FetchTask.mk (s.nextFetchPosition + i * chunkSize) chunkSize
  { s with queueLen := prefetchThreshold
           batch := some (Batch.mk ts 0)
           issued := s.issued ++ ts }

/-- Completion of one in-flight task `t` of batch `b` with response `r`:
the task's `.then` appends the returned digits (if any) to
`prefetchedDigits` in completion order.  If `t` was the last pending
task, the `Promise.all` continuation runs in the same microtask window:
it adds `totalFetched` to `nextFetchPosition` and, when the buffer is
below the lookahead target and digits remain, schedules another
`startPrefetching` via `setTimeout(…, 0)`. -/
def completeTask (s : ClientState) (b : Batch) (t : FetchTask) (r : Resp) : ClientState :=
  if (b.pending.erase t).isEmpty then
    { s with
      prefetchedDigits := s.prefetchedDigits ++ (fetchMoreDigits s.hasMoreDigits r).1
      hasMoreDigits := (fetchMoreDigits s.hasMoreDigits r).2
      nextFetchPosition := s.nextFetchPosition +
        (b.fetchedSoFar + (fetchMoreDigits s.hasMoreDigits r).1.length)
      batch := none
      rescheduled := s.rescheduled ||
        ((fetchMoreDigits s.hasMoreDigits r).2 &&
          decide ((s.prefetchedDigits ++ (fetchMoreDigits s.hasMoreDigits r).1).length <
            chunkSize * prefetchThreshold)) }
  else
    { s with
      prefetchedDigits := s.prefetchedDigits ++ (fetchMoreDigits s.hasMoreDigits r).1
      hasMoreDigits := (fetchMoreDigits s.hasMoreDigits r).2
      batch := some (Batch.mk (b.pending.erase t)
        (b.fetchedSoFar + (fetchMoreDigits s.hasMoreDigits r).1.length)) }

/-- `addDigitsToDisplay`: if the buffer is non-empty, move up to
`chunkSize` characters from its front to the page and advance
`currentPosition` by the number moved; afterwards, when the remaining
buffer is below the low-water mark `chunkSize * (prefetchThreshold / 2)`
and `prefetchQueue.length === 0` and digits remain, call
`startPrefetching`. -/
def addDigitsToDisplay (s : ClientState) : ClientState :=
  if s.prefetchedDigits.isEmpty then s
  else
    let n := min chunkSize s.prefetchedDigits.length
    let s' := { s with displayed := s.displayed ++ s.prefetchedDigits.take n
                       prefetchedDigits := s.prefetchedDigits.drop n
                       currentPosition := s.currentPosition + n }
    if s'.prefetchedDigits.length < chunkSize * 5 ∧ s'.queueLen = 0 ∧
        s'.hasMoreDigits = true then
      startPrefetching s'
    else s'

/-- The refill check of the `setInterval` handler: same guard as the
drain's refill branch, without draining. -/
def intervalRefill (s : ClientState) : ClientState :=
  if s.prefetchedDigits.length < chunkSize * 5 ∧ s.queueLen = 0 ∧
      s.hasMoreDigits = true then
    startPrefetching s
  else s

/-- The script's variables right after initialization, before the
load-time `startPrefetching()` call. -/
def vars0 : ClientState :=
  { currentPosition := 1
    nextFetchPosition := 1
    prefetchedDigits := []
    hasMoreDigits := true
    queueLen := 0
    batch := none
    rescheduled := false
    issued := []
    displayed := [] }

/-- Session state after the script's load-time `startPrefetching()`. -/
def initClientState : ClientState := startPrefetching vars0

/-- One scheduler step of the client session.  Drains can fire at any
macrotask point (the 50ms timeout, scroll events, and the interval's
height check are all environment-driven); any pending task may complete
next, with any admissible response; a `setTimeout(startPrefetching, 0)`
scheduled at batch completion runs as `runScheduled`; the interval's
refill check may run at any time. -/
inductive Step (seq : List Char) : ClientState → ClientState → Prop where
  | drain (s : ClientState) : Step seq s (addDigitsToDisplay s)
  | complete (s : ClientState) (b : Batch) (t : FetchTask) (r : Resp)
      (hb : s.batch = some b) (ht : t ∈ b.pending) (hr : RealisticResp seq t r) :
      Step seq s (completeTask s b t r)
  | runScheduled (s : ClientState) (h : s.rescheduled = true) :
      Step seq s (startPrefetching { s with rescheduled := false })
  | refillCheck (s : ClientState) : Step seq s (intervalRefill s)

/-- Reachable session states for a backing sequence `seq`. -/
def Reachable (seq : List Char) (s : ClientState) : Prop :=
  Relation.ReflTransGen (Step seq) initClientState s

/-- Bytes contributed by completed tasks of the in-flight round that are
not yet credited to `nextFetchPosition`. -/
def batchFetched (s : ClientState) : Nat :=
  match s.batch with
  | none => 0
  | some b => b.fetchedSoFar

/-- The half-open slice `seq[a : b)` of the backing sequence. -/
def sliceOf (seq : List Char) (a b : Nat) : List Char :=
  (seq.drop a).take (b - a)

/-- Two fetch tasks have disjoint requested offset ranges. -/
def TasksDisjoint (t1 t2 : FetchTask) : Prop :=
  t1.pos + t1.len ≤ t2.pos ∨ t2.pos + t2.len ≤ t1.pos

instance : DecidableRel TasksDisjoint :=
  fun t1 t2 => by unfold TasksDisjoint; infer_instance

/-- Structural invariant of reachable client states: the prefetch queue
length is pinned at `prefetchThreshold` (it is never cleared after the
load-time `startPrefetching`), a scheduled re-prefetch implies the
previous round finished with digits remaining, and the cursor equation
`currentPosition + buffer = nextFetchPosition + uncredited bytes`. -/
def Inv (s : ClientState) : Prop :=
  s.queueLen = prefetchThreshold ∧
  (s.rescheduled = true → s.batch = none ∧ s.hasMoreDigits = true) ∧
  s.currentPosition + s.prefetchedDigits.length = s.nextFetchPosition + batchFetched s

/-- A 4-character backing sequence used for small concrete traces. -/
def seqSmall : List Char := ['3', '.', '1', '4']

/-- A 1-character backing sequence: every fetch past offset 0 is empty. -/
def seqOne : List Char := ['3']

/-- A sequence long enough for the first two chunks to differ: one
leading character, then `chunkSize` ones followed by `chunkSize` twos. -/
def seqTwoChunks : List Char :=
  '3' :: (List.replicate chunkSize '1' ++ List.replicate chunkSize '2')

/-- A sequence long enough for ten full chunks of ones. -/
def seqTenChunks : List Char :=
  '3' :: List.replicate (chunkSize * prefetchThreshold) '1'

/-- Completion of a task against whatever batch is currently in flight
(a convenience wrapper used to write concrete traces). -/
def completeNow (s : ClientState) (t : FetchTask) (r : Resp) : ClientState :=
  match s.batch with
  | none => s
  | some b => completeTask s b t r

/-- The task list of the first prefetch round. -/
def ts1 : List FetchTask :=
  (List.range prefetchThreshold).map fun i => FetchTask.mk (1 + i * chunkSize) chunkSize

/-- The server's answer for the first chunk when the sequence is
`seqSmall`: three characters, fewer than the requested `chunkSize`. -/
def respSmall : List Char := ['.', '1', '4']

/-- State of the `seqSmall` session after the first task of the initial
round completed with the short three-character slice and `k - 1` of the
remaining nine tasks failed (in issue order): the round still has
`ts1.drop k` pending and 3 uncredited bytes.  Meaningful for
`1 <= k <= 9`. -/
def sDmid (k : Nat) : ClientState :=
  { currentPosition := 1
    nextFetchPosition := 1
    prefetchedDigits := respSmall
    hasMoreDigits := true
    queueLen := prefetchThreshold
    batch := some ⟨ts1.drop k, 3⟩
    rescheduled := false
    issued := ts1
    displayed := [] }

/-- State after a drain consumes the three buffered characters while
nine tasks of the round are still in flight. -/
def sA2 : ClientState := addDigitsToDisplay (sDmid 1)

/-- State after the last task of the first round also failed: the round
is over, only 3 of the requested 1000000 bytes were credited, and a new
`startPrefetching` is scheduled. -/
def sDend : ClientState :=
  { currentPosition := 1
    nextFetchPosition := 4
    prefetchedDigits := respSmall
    hasMoreDigits := true
    queueLen := prefetchThreshold
    batch := none
    rescheduled := true
    issued := ts1
    displayed := [] }

/-- State after the deferred `startPrefetching` scheduled at the end of
the first round runs: a second round is issued starting at offset 4. -/
def sD11 : ClientState := startPrefetching { sDend with rescheduled := false }

/-- State after the only task that can return bytes for `seqOne`
completes with the empty slice: `hasMoreDigits` becomes false. -/
def sE : ClientState :=
  { currentPosition := 1
    nextFetchPosition := 1
    prefetchedDigits := []
    hasMoreDigits := false
    queueLen := prefetchThreshold
    batch := some ⟨ts1.drop 1, 0⟩
    rescheduled := false
    issued := ts1
    displayed := [] }

/-- State of the `seqTwoChunks` session after the SECOND task of the
initial round (range `[100001, 200001)`) completed first, out of issue
order: the buffer already holds the second chunk while
`nextFetchPosition` is still 1. -/
def sB1 : ClientState :=
  { currentPosition := 1
    nextFetchPosition := 1
    prefetchedDigits := List.replicate chunkSize '2'
    hasMoreDigits := true
    queueLen := prefetchThreshold
    batch := some ⟨ts1.erase ⟨1 + 1 * chunkSize, chunkSize⟩, chunkSize⟩
    rescheduled := false
    issued := ts1
    displayed := [] }

/-- State after a drain moves that out-of-order chunk to the display:
the page now shows the bytes of `[100001, 200001)` at positions
`[1, 100001)`. -/
def sB2 : ClientState :=
  { currentPosition := 1 + chunkSize
    nextFetchPosition := 1
    prefetchedDigits := []
    hasMoreDigits := true
    queueLen := prefetchThreshold
    batch := some ⟨ts1.erase ⟨1 + 1 * chunkSize, chunkSize⟩, chunkSize⟩
    rescheduled := false
    issued := ts1
    displayed := List.replicate chunkSize '2' }

/-- State of the `seqTenChunks` session after the first `k` tasks of the
initial round completed in issue order, each with a full chunk
(meaningful for `k <= 9`). -/
def sC_fetch (k : Nat) : ClientState :=
  { currentPosition := 1
    nextFetchPosition := 1
    prefetchedDigits := List.replicate (k * chunkSize) '1'
    hasMoreDigits := true
    queueLen := prefetchThreshold
    batch := some ⟨ts1.drop k, k * chunkSize⟩
    rescheduled := false
    issued := ts1
    displayed := [] }

/-- State after the whole first round of `seqTenChunks` completed with a
full buffer (so no re-prefetch was scheduled) and `j` drains ran
(meaningful for `j <= 10`). -/
def sC_drain (j : Nat) : ClientState :=
  { currentPosition := 1 + j * chunkSize
    nextFetchPosition := 1 + prefetchThreshold * chunkSize
    prefetchedDigits := List.replicate ((prefetchThreshold - j) * chunkSize) '1'
    hasMoreDigits := true
    queueLen := prefetchThreshold
    batch := none
    rescheduled := false
    issued := ts1
    displayed := List.replicate (j * chunkSize) '1' }

/-- An arbitrary post-end-of-stream state with a non-empty buffer, used
as a concrete witness input. -/
def sW : ClientState :=
  { currentPosition := 5
    nextFetchPosition := 9
    prefetchedDigits := ['1', '2']
    hasMoreDigits := false
    queueLen := prefetchThreshold
    batch := none
    rescheduled := false
    issued := []
    displayed := ['3'] }

/-! ## Helper lemmas -/

theorem clientState_ext (a b : ClientState)
    (h1 : a.currentPosition = b.currentPosition)
    (h2 : a.nextFetchPosition = b.nextFetchPosition)
    (h3 : a.prefetchedDigits = b.prefetchedDigits)
    (h4 : a.hasMoreDigits = b.hasMoreDigits)
    (h5 : a.queueLen = b.queueLen)
    (h6 : a.batch = b.batch)
    (h7 : a.rescheduled = b.rescheduled)
    (h8 : a.issued = b.issued)
    (h9 : a.displayed = b.displayed) : a = b := by
  cases a
  cases b
  cases h1
  cases h2
  cases h3
  cases h4
  cases h5
  cases h6
  cases h7
  cases h8
  cases h9
  rfl

theorem fetchMoreDigits_ok_ne (h : Bool) (d : List Char) (hd : d.isEmpty = false) :
    fetchMoreDigits h (.ok d) = (d, h) := by
  show (if d.isEmpty = true then (([] : List Char), false) else (d, h)) = (d, h)
  rw [hd]
  exact if_neg Bool.false_ne_true

theorem isEmpty_replicate_chunkSize (c : Char) :
    (List.replicate chunkSize c).isEmpty = false := by
  rw [List.isEmpty_replicate]
  decide

theorem fetchMoreDigits_snd_false (r : Resp) : (fetchMoreDigits false r).2 = false := by
  cases r with
  | err => rfl
  | ok d => by_cases h : d.isEmpty <;> simp [fetchMoreDigits, h]

theorem addDigitsToDisplay_of_queue_ne (s : ClientState) (hq : s.queueLen ≠ 0) :
    addDigitsToDisplay s =
      if s.prefetchedDigits.isEmpty then s
      else
        { s with
          displayed :=
            s.displayed ++ s.prefetchedDigits.take (min chunkSize s.prefetchedDigits.length)
          prefetchedDigits :=
            s.prefetchedDigits.drop (min chunkSize s.prefetchedDigits.length)
          currentPosition :=
            s.currentPosition + min chunkSize s.prefetchedDigits.length } := by
  unfold addDigitsToDisplay
  dsimp only
  split
  · rfl
  · split
    · next hcond => exact absurd hcond.2.1 hq
    · rfl

theorem intervalRefill_of_queue_ne (s : ClientState) (hq : s.queueLen ≠ 0) :
    intervalRefill s = s := by
  unfold intervalRefill
  split
  · next hcond => exact absurd hcond.2.1 hq
  · rfl

theorem inv_init : Inv initClientState := by
  unfold Inv
  refine ⟨rfl, ?_, rfl⟩
  intro h
  exact absurd h (by decide)

theorem inv_drain (s : ClientState) (hs : Inv s) : Inv (addDigitsToDisplay s) := by
  obtain ⟨hq, hr, he⟩ := hs
  rw [addDigitsToDisplay_of_queue_ne s (by rw [hq]; decide)]
  split
  · exact ⟨hq, hr, he⟩
  · refine ⟨hq, hr, ?_⟩
    have hbf : batchFetched { s with
        displayed :=
          s.displayed ++ s.prefetchedDigits.take (min chunkSize s.prefetchedDigits.length)
        prefetchedDigits :=
          s.prefetchedDigits.drop (min chunkSize s.prefetchedDigits.length)
        currentPosition :=
          s.currentPosition + min chunkSize s.prefetchedDigits.length } = batchFetched s := rfl
    simp only [hbf, List.length_drop]
    have hmin : min chunkSize s.prefetchedDigits.length ≤ s.prefetchedDigits.length :=
      min_le_right _ _
    omega

theorem inv_complete (s : ClientState) (b : Batch) (t : FetchTask) (r : Resp)
    (hb : s.batch = some b) (hs : Inv s) : Inv (completeTask s b t r) := by
  obtain ⟨hq, hr', he⟩ := hs
  have hresf : s.rescheduled = false := by
    cases hR : s.rescheduled with
    | false => rfl
    | true =>
      have hnone := (hr' hR).1
      rw [hb] at hnone
      exact absurd hnone (by simp)
  have hbf : batchFetched s = b.fetchedSoFar := by
    simp [batchFetched, hb]
  simp only [completeTask]
  split
  · refine ⟨hq, ?_, ?_⟩
    · intro hR2
      simp only [hresf, Bool.false_or, Bool.and_eq_true, decide_eq_true_eq] at hR2
      exact ⟨rfl, hR2.1⟩
    · simp only [batchFetched, List.length_append]
      omega
  · refine ⟨hq, ?_, ?_⟩
    · intro hR2
      simp only [hresf] at hR2
      exact absurd hR2 (by simp)
    · simp only [batchFetched, List.length_append]
      omega

theorem inv_runScheduled (s : ClientState) (hr : s.rescheduled = true) (hs : Inv s) :
    Inv (startPrefetching { s with rescheduled := false }) := by
  obtain ⟨hq, hr', he⟩ := hs
  have hnone := (hr' hr).1
  have hbf : batchFetched s = 0 := by simp [batchFetched, hnone]
  refine ⟨rfl, ?_, ?_⟩
  · intro hR2
    exact absurd hR2 (by simp [startPrefetching])
  · simp only [startPrefetching, batchFetched]
    omega

theorem inv_step {seq : List Char} {s s' : ClientState} (hs : Inv s) (h : Step seq s s') :
    Inv s' := by
  cases h with
  | drain => exact inv_drain _ hs
  | complete b t r hb ht hr => exact inv_complete _ b t r hb hs
  | runScheduled h => exact inv_runScheduled _ h hs
  | refillCheck =>
    rw [intervalRefill_of_queue_ne _ (by rw [hs.1]; decide)]
    exact hs

theorem inv_reachable {seq : List Char} {s : ClientState} (h : Reachable seq s) : Inv s := by
  induction h with
  | refl => exact inv_init
  | tail _ hstep ih => exact inv_step ih hstep

theorem completeTask_issued (s : ClientState) (b : Batch) (t : FetchTask) (r : Resp) :
    (completeTask s b t r).issued = s.issued := by
  simp only [completeTask]
  split <;> rfl

theorem completeTask_hasMore_false (s : ClientState) (b : Batch) (t : FetchTask) (r : Resp)
    (hm : s.hasMoreDigits = false) : (completeTask s b t r).hasMoreDigits = false := by
  simp only [completeTask]
  split <;> simp [hm, fetchMoreDigits_snd_false]

theorem eos_step {seq : List Char} {s s' : ClientState} (hInv : Inv s)
    (hm : s.hasMoreDigits = false) (h : Step seq s s') :
    s'.hasMoreDigits = false ∧ s'.issued = s.issued := by
  cases h with
  | drain =>
    rw [addDigitsToDisplay_of_queue_ne _ (by rw [hInv.1]; decide)]
    split
    · exact ⟨hm, rfl⟩
    · exact ⟨hm, rfl⟩
  | complete b t r hb ht hr =>
    exact ⟨completeTask_hasMore_false _ b t r hm, completeTask_issued _ b t r⟩
  | runScheduled h =>
    have htrue := (hInv.2.1 h).2
    rw [hm] at htrue
    exact absurd htrue (by decide)
  | refillCheck =>
    rw [intervalRefill_of_queue_ne _ (by rw [hInv.1]; decide)]
    exact ⟨hm, rfl⟩

theorem stalled_step {seq : List Char} {s s' : ClientState} (h1 : s.batch = none)
    (h2 : s.rescheduled = false) (hq : s.queueLen ≠ 0) (h : Step seq s s') :
    s'.batch = none ∧ s'.rescheduled = false ∧ s'.queueLen = s.queueLen ∧
      s'.issued = s.issued := by
  cases h with
  | drain =>
    rw [addDigitsToDisplay_of_queue_ne _ hq]
    split
    · exact ⟨h1, h2, rfl, rfl⟩
    · exact ⟨h1, h2, rfl, rfl⟩
  | complete b t r hb ht hr =>
    rw [h1] at hb
    exact absurd hb (by simp)
  | runScheduled h =>
    rw [h2] at h
    exact absurd h (by decide)
  | refillCheck =>
    rw [intervalRefill_of_queue_ne _ hq]
    exact ⟨h1, h2, rfl, rfl⟩

theorem stalled_reach {seq : List Char} {s s' : ClientState}
    (h : Relation.ReflTransGen (Step seq) s s') (h1 : s.batch = none)
    (h2 : s.rescheduled = false) (hq : s.queueLen ≠ 0) :
    s'.issued = s.issued ∧ s'.batch = none ∧ s'.rescheduled = false ∧
      s'.queueLen = s.queueLen := by
  induction h with
  | refl => exact ⟨rfl, h1, h2, rfl⟩
  | tail _ hstep ih =>
    obtain ⟨hi, hb, hrs, hql⟩ := ih
    have hst := stalled_step hb hrs (by rw [hql]; exact hq) hstep
    exact ⟨hst.2.2.2.trans hi, hst.1, hst.2.1, hst.2.2.1.trans hql⟩

/-! ## Range Service claims -/

/-- C6: for every valid request (`offset >= 0`, `0 < length <= MAX_RANGE`)
the read returns at most `length` bytes; any larger requested length is
clamped to `MAX_RANGE`; and in all cases exactly one bounded read of
`[offset, offset + clampedLength)` is performed against the store. -/
theorem c6_read_at_most_length (seq : List Char) (start : Nat) (length : Int)
    (hpos : 0 < length) :
    (getPiDigits (.present seq) start length).reads =
      [(start, min length (MAX_RANGE : Int))] ∧
    (∀ d, (getPiDigits (.present seq) start length).result = some d →
      (d.length : Int) ≤ length) ∧
    (length ≤ (MAX_RANGE : Int) →
      (getPiDigits (.present seq) start length).reads = [(start, length)]) ∧
    ((MAX_RANGE : Int) < length →
      (getPiDigits (.present seq) start length).reads = [(start, (MAX_RANGE : Int))]) := by
  refine ⟨rfl, ?_, ?_, ?_⟩
  · intro d hd
    simp only [getPiDigits, Option.some.injEq] at hd
    have hlen : d.length ≤ (min length (MAX_RANGE : Int)).toNat := by
      rw [← hd]
      exact List.length_take_le _ _
    have hMR : (0 : Int) < MAX_RANGE := by decide
    omega
  · intro hle
    simp only [getPiDigits]
    rw [min_eq_left hle]
  · intro hlt
    simp only [getPiDigits]
    rw [min_eq_right (le_of_lt hlt)]

/-- Witness for C6 at a concrete valid request. -/
theorem c6_read_at_most_length_witness :
    (getPiDigits (.present ['3', '.', '1', '4']) 0 5).reads = [(0, 5)] :=
  (c6_read_at_most_length ['3', '.', '1', '4'] 0 5 (by decide)).2.2.1 (by decide)

/-- C7 fails on the code: a request with `length = 0` (non-positive) is
not rejected; validation passes, the store is read once, and the handler
answers 404 (the empty slice is falsy), not 400. -/
theorem c7_counterexample :
    handlePi (.present ['3', '.', '1', '4']) (some 0) (some 0) = (.notFound, [(0, 0)]) ∧
    (handlePi (.present ['3', '.', '1', '4']) (some 0) (some 0)).1 ≠ .badRequest ∧
    (handlePi (.present ['3', '.', '1', '4']) (some 0) (some 0)).2 ≠ [] := by
  decide

/-- C7 amended: the endpoint rejects NaN parameters, `start < 0` and
`length > MAX_RANGE` with 400 before any store access, but it does NOT
reject non-positive lengths: those reach the store and, when the object
exists, yield an empty slice which is reported as 404. -/
theorem c7_amended (store : StoreState) (st len : Int) :
    (st < 0 ∨ (MAX_RANGE : Int) < len →
      handlePi store (some st) (some len) = (.badRequest, [])) ∧
    handlePi store none (some len) = (.badRequest, []) ∧
    handlePi store (some st) none = (.badRequest, []) ∧
    (∀ seq, store = .present seq → len ≤ 0 → 0 ≤ st →
      handlePi store (some st) (some len) = (.notFound, [(st.toNat, len)])) := by
  refine ⟨?_, rfl, ?_, ?_⟩
  · intro h
    simp only [handlePi]
    rw [if_pos (by omega)]
  · cases st <;> rfl
  · intro seq hseq hle hst
    subst hseq
    have hmin : min len (MAX_RANGE : Int) = len := by
      rw [min_eq_left (by omega)]
    have htoNat : len.toNat = 0 := by omega
    simp only [handlePi, getPiDigits]
    rw [if_neg (by omega), hmin, htoNat]
    simp

/-- Witness for C7's amended statement at concrete inputs. -/
theorem c7_amended_witness :
    handlePi (.present ['3', '.', '1', '4']) (some (-1)) (some 5) = (.badRequest, []) ∧
    handlePi (.present ['3', '.', '1', '4']) (some 2) (some (-7)) =
      (.notFound, [(2, -7)]) := by
  refine ⟨?_, ?_⟩
  · exact (c7_amended (.present ['3', '.', '1', '4']) (-1) 5).1 (by decide)
  · exact (c7_amended (.present ['3', '.', '1', '4']) 2 (-7)).2.2.2
      ['3', '.', '1', '4'] rfl (by decide) (by decide)

/-- C8 fails on the code: a store-level I/O error (the catch branch) and
an absent object produce the very same outcome — `getPiDigits` returns
null and the endpoint answers the same 404 — so no transient-failure
result distinct from ObjectNotFound exists. -/
theorem c8_counterexample :
    handlePi .ioError (some 0) (some 5) = handlePi .absent (some 0) (some 5) ∧
    handlePi .ioError (some 0) (some 5) = (.notFound, [(0, 5)]) := by
  decide

/-- C8 amended: store I/O errors are caught and surfaced identically to
the object-missing case: `getPiDigits` returns null for both, and the
endpoint maps both to the 404 response. -/
theorem c8_amended (start : Nat) (length : Int) :
    getPiDigits .ioError start length = getPiDigits .absent start length ∧
    (getPiDigits .ioError start length).result = none ∧
    (getPiDigits .absent start length).result = none := by
  exact ⟨rfl, rfl, rfl⟩

/-- Witness for C8's amended statement at a concrete request. -/
theorem c8_amended_witness :
    getPiDigits .ioError 0 5 = getPiDigits .absent 0 5 :=
  (c8_amended 0 5).1

/-- C9: the backing read for an offset past the end of the sequence does
succeed with zero bytes inside `getPiDigits` (an empty string, not null),
but the endpoint's falsy check conflates the empty slice with the
object-missing case and answers 404 "π file not found" even though the
object exists — contradicting the claim's "not a 404". -/
theorem c9_bug :
    (getPiDigits (.present ['3', '.', '1', '4']) 10 5).result = some [] ∧
    (getPiDigits (.present ['3', '.', '1', '4']) 10 5).result ≠ none ∧
    handlePi (.present ['3', '.', '1', '4']) (some 10) (some 5) =
      (.notFound, [(10, 5)]) := by
  decide

/-! ## Prefetch Buffer Manager claims -/

theorem step_to (seq : List Char) (s s2 : ClientState) (b : Batch) (t : FetchTask)
    (r : Resp) (hb : s.batch = some b) (ht : t ∈ b.pending) (hr : RealisticResp seq t r)
    (heq : completeTask s b t r = s2) : Step seq s s2 :=
  heq ▸ Step.complete s b t r hb ht hr

theorem step_first : Step seqSmall initClientState (sDmid 1) :=
  step_to seqSmall initClientState (sDmid 1) ⟨ts1, 0⟩ ⟨1, chunkSize⟩ (.ok respSmall)
    (by decide) (by decide) (by decide) (by decide)

/-- C2 fails on the code: a drain can consume bytes whose fetch has
completed but whose round has not, because `nextFetchPosition` is only
advanced when `Promise.all` resolves.  After the first task's short
response is drained, `currentPosition = 4 > 1 = nextFetchPosition`. -/
theorem c2_counterexample :
    Reachable seqSmall sA2 ∧ sA2.nextFetchPosition < sA2.currentPosition := by
  refine ⟨?_, by decide⟩
  exact Relation.ReflTransGen.tail (Relation.ReflTransGen.single step_first)
    (Step.drain (sDmid 1))

/-- C2 amended: in every reachable state, `currentPosition + buffered =
nextFetchPosition + bytes fetched by completed-but-uncredited tasks of
the in-flight round`; in particular `currentPosition <=
nextFetchPosition` holds whenever no round is in flight. -/
theorem c2_amended (seq : List Char) (s : ClientState) (h : Reachable seq s) :
    s.currentPosition + s.prefetchedDigits.length =
      s.nextFetchPosition + batchFetched s ∧
    (s.batch = none → s.currentPosition ≤ s.nextFetchPosition) := by
  have hInv := inv_reachable h
  refine ⟨hInv.2.2, ?_⟩
  intro hb
  have hbf : batchFetched s = 0 := by simp [batchFetched, hb]
  have he := hInv.2.2
  omega

/-- Witness for C2's amended statement at the initial state. -/
theorem c2_amended_witness :
    initClientState.currentPosition + initClientState.prefetchedDigits.length =
      initClientState.nextFetchPosition + batchFetched initClientState :=
  (c2_amended seqSmall initClientState Relation.ReflTransGen.refl).1

/-- C4 fails on the code: a task that returns fewer bytes than requested
(but more than zero) does not move the session to end-of-stream — after
the three-character response to a 100000-byte request, `hasMoreDigits`
is still true. -/
theorem c4_counterexample :
    Reachable seqSmall (sDmid 1) ∧ respSmall.length < chunkSize ∧
    (sDmid 1).hasMoreDigits = true := by
  refine ⟨?_, by decide, by decide⟩
  exact Relation.ReflTransGen.single step_first

/-- C4 amended: end-of-stream is entered exactly on a zero-byte response
(short non-zero responses and fetch errors leave `hasMoreDigits` true);
once `hasMoreDigits` is false it stays false and no further fetch task is
ever issued; and a drain on an empty buffer is a no-op (the script has
no explicit "no more" signal). -/
theorem c4_amended :
    (∀ (s : ClientState) (b : Batch) (t : FetchTask),
      (completeTask s b t (.ok [])).hasMoreDigits = false) ∧
    (∀ (seq : List Char) (s s' : ClientState), Reachable seq s →
      s.hasMoreDigits = false → Step seq s s' →
      s'.hasMoreDigits = false ∧ s'.issued = s.issued) ∧
    (∀ s : ClientState, s.prefetchedDigits = [] → addDigitsToDisplay s = s) := by
  refine ⟨?_, ?_, ?_⟩
  · intro s b t
    simp only [completeTask, fetchMoreDigits]
    split <;> simp
  · intro seq s s' hre hm hstep
    exact eos_step (inv_reachable hre) hm hstep
  · intro s hbuf
    unfold addDigitsToDisplay
    rw [if_pos (by rw [hbuf]; rfl)]

/-- Witness for C4's amended statement: a zero-byte completion against
the one-character sequence reaches end-of-stream, and a subsequent drain
keeps `hasMoreDigits` false and issues nothing. -/
theorem c4_amended_witness :
    (addDigitsToDisplay sE).hasMoreDigits = false ∧
    (addDigitsToDisplay sE).issued = sE.issued :=
  c4_amended.2.1 seqOne sE (addDigitsToDisplay sE)
    (Relation.ReflTransGen.single
      (step_to seqOne initClientState sE ⟨ts1, 0⟩ ⟨1, chunkSize⟩ (.ok [])
        (by decide) (by decide) (by decide) (by decide)))
    (by decide) (Step.drain sE)

/-- C3 fails on the code: `nextFetchPosition` is not advanced at
issuance (after the initial round is issued it still equals 1), and
tasks from different rounds can overlap: after the first round fetches
only 3 bytes, the second round is issued starting at offset 4, inside
the first round's first task range `[1, 100001)`. -/
theorem c3_counterexample :
    Reachable seqSmall sD11 ∧ ¬ sD11.issued.Pairwise TasksDisjoint ∧
    initClientState.issued ≠ [] ∧ initClientState.nextFetchPosition = 1 := by
  refine ⟨?_, by decide, by decide, rfl⟩
  have h1 : Step seqSmall (sDmid 1) (sDmid 2) :=
    step_to seqSmall _ _ ⟨ts1.drop 1, 3⟩ ⟨1 + 1 * chunkSize, chunkSize⟩ .err
      (by decide) (by decide) trivial (by decide)
  have h2 : Step seqSmall (sDmid 2) (sDmid 3) :=
    step_to seqSmall _ _ ⟨ts1.drop 2, 3⟩ ⟨1 + 2 * chunkSize, chunkSize⟩ .err
      (by decide) (by decide) trivial (by decide)
  have h3 : Step seqSmall (sDmid 3) (sDmid 4) :=
    step_to seqSmall _ _ ⟨ts1.drop 3, 3⟩ ⟨1 + 3 * chunkSize, chunkSize⟩ .err
      (by decide) (by decide) trivial (by decide)
  have h4 : Step seqSmall (sDmid 4) (sDmid 5) :=
    step_to seqSmall _ _ ⟨ts1.drop 4, 3⟩ ⟨1 + 4 * chunkSize, chunkSize⟩ .err
      (by decide) (by decide) trivial (by decide)
  have h5 : Step seqSmall (sDmid 5) (sDmid 6) :=
    step_to seqSmall _ _ ⟨ts1.drop 5, 3⟩ ⟨1 + 5 * chunkSize, chunkSize⟩ .err
      (by decide) (by decide) trivial (by decide)
  have h6 : Step seqSmall (sDmid 6) (sDmid 7) :=
    step_to seqSmall _ _ ⟨ts1.drop 6, 3⟩ ⟨1 + 6 * chunkSize, chunkSize⟩ .err
      (by decide) (by decide) trivial (by decide)
  have h7 : Step seqSmall (sDmid 7) (sDmid 8) :=
    step_to seqSmall _ _ ⟨ts1.drop 7, 3⟩ ⟨1 + 7 * chunkSize, chunkSize⟩ .err
      (by decide) (by decide) trivial (by decide)
  have h8 : Step seqSmall (sDmid 8) (sDmid 9) :=
    step_to seqSmall _ _ ⟨ts1.drop 8, 3⟩ ⟨1 + 8 * chunkSize, chunkSize⟩ .err
      (by decide) (by decide) trivial (by decide)
  have h9 : Step seqSmall (sDmid 9) sDend :=
    step_to seqSmall _ _ ⟨ts1.drop 9, 3⟩ ⟨1 + 9 * chunkSize, chunkSize⟩ .err
      (by decide) (by decide) trivial (by decide)
  have h10 : Step seqSmall sDend sD11 :=
    Step.runScheduled sDend rfl
  exact .tail (.tail (.tail (.tail (.tail (.tail (.tail (.tail (.tail (.tail
    (Relation.ReflTransGen.single step_first) h1) h2) h3) h4) h5) h6) h7) h8) h9) h10

/-- C3 amended: issuing a round does not change `nextFetchPosition`; the
tasks of one round are issued at consecutive pairwise-disjoint ranges;
`nextFetchPosition` advances only when the whole round completes, by the
total number of bytes actually fetched. -/
theorem c3_amended :
    (∀ s : ClientState, (startPrefetching s).nextFetchPosition = s.nextFetchPosition) ∧
    (∀ (s : ClientState) (b : Batch), (startPrefetching s).batch = some b →
      b.pending.Pairwise TasksDisjoint) ∧
    (∀ (s : ClientState) (b : Batch) (t : FetchTask) (r : Resp), s.batch = some b →
      (b.pending.erase t).isEmpty = true →
      (completeTask s b t r).nextFetchPosition =
        s.nextFetchPosition + b.fetchedSoFar +
          (fetchMoreDigits s.hasMoreDigits r).1.length) := by
  refine ⟨fun s => rfl, ?_, ?_⟩
  · intro s b hb
    simp only [startPrefetching, Option.some.injEq] at hb
    rw [← hb]
    refine List.Pairwise.map _ ?_ (List.pairwise_lt_range prefetchThreshold)
    intro i j hij
    left
    simp only [chunkSize]
    omega
  · intro s b t r hb hEmpty
    simp only [completeTask]
    rw [if_pos hEmpty]
    simp only []
    omega

/-- Witness for C3's amended statement at the initial round. -/
theorem c3_amended_witness :
    (startPrefetching vars0).nextFetchPosition = vars0.nextFetchPosition ∧
    ts1.Pairwise TasksDisjoint :=
  ⟨c3_amended.1 vars0, c3_amended.2.1 vars0 ⟨ts1, 0⟩ (by decide)⟩

/-- C10: when `hasMoreDigits` is false and the buffer is non-empty, the
drain still moves `min chunkSize bufferLength` characters (at most
`chunkSize`) from the buffer front to the display and advances
`currentPosition` by exactly that amount — the same field updates as in
the live (`hasMoreDigits = true`) case. -/
theorem c10_drain_after_eos (s : ClientState) (hm : s.hasMoreDigits = false)
    (hne : s.prefetchedDigits ≠ []) :
    (addDigitsToDisplay s).displayed =
      s.displayed ++ s.prefetchedDigits.take (min chunkSize s.prefetchedDigits.length) ∧
    (addDigitsToDisplay s).prefetchedDigits =
      s.prefetchedDigits.drop (min chunkSize s.prefetchedDigits.length) ∧
    (addDigitsToDisplay s).currentPosition =
      s.currentPosition + min chunkSize s.prefetchedDigits.length ∧
    min chunkSize s.prefetchedDigits.length ≤ chunkSize ∧
    (addDigitsToDisplay s).displayed =
      (addDigitsToDisplay { s with hasMoreDigits := true }).displayed ∧
    (addDigitsToDisplay s).prefetchedDigits =
      (addDigitsToDisplay { s with hasMoreDigits := true }).prefetchedDigits ∧
    (addDigitsToDisplay s).currentPosition =
      (addDigitsToDisplay { s with hasMoreDigits := true }).currentPosition := by
  have hE : s.prefetchedDigits.isEmpty = false := by
    simp [List.isEmpty_iff, hne]
  have hEos : addDigitsToDisplay s =
      { s with
        displayed :=
          s.displayed ++ s.prefetchedDigits.take (min chunkSize s.prefetchedDigits.length)
        prefetchedDigits :=
          s.prefetchedDigits.drop (min chunkSize s.prefetchedDigits.length)
        currentPosition :=
          s.currentPosition + min chunkSize s.prefetchedDigits.length } := by
    unfold addDigitsToDisplay
    dsimp only
    rw [if_neg (by rw [hE]; decide), if_neg (by rw [hm]; simp)]
  refine ⟨by rw [hEos], by rw [hEos], by rw [hEos], min_le_left _ _, ?_, ?_, ?_⟩ <;>
  · rw [hEos]
    unfold addDigitsToDisplay
    dsimp only
    rw [if_neg (by rw [hE]; decide)]
    split
    · rfl
    · rfl

/-- Witness for C10 at a concrete end-of-stream state with two buffered
characters. -/
theorem c10_drain_after_eos_witness :
    (addDigitsToDisplay sW).currentPosition =
      sW.currentPosition + min chunkSize sW.prefetchedDigits.length :=
  (c10_drain_after_eos sW rfl (by decide)).2.2.1

theorem serverSlice_twoChunks_second :
    serverSlice seqTwoChunks (1 + 1 * chunkSize) chunkSize =
      List.replicate chunkSize '2' := by
  unfold serverSlice seqTwoChunks
  rw [show 1 + 1 * chunkSize = chunkSize + 1 from by omega]
  rw [List.drop_succ_cons, List.drop_left' (List.length_replicate chunkSize '1')]
  rw [show min chunkSize MAX_RANGE = chunkSize from by decide]
  rw [List.take_replicate, min_self]

theorem stepB1 : Step seqTwoChunks initClientState sB1 := by
  refine step_to seqTwoChunks _ _ ⟨ts1, 0⟩ ⟨1 + 1 * chunkSize, chunkSize⟩
    (.ok (List.replicate chunkSize '2')) (by decide) (by decide) ?_ ?_
  · show List.replicate chunkSize '2' =
      serverSlice seqTwoChunks (1 + 1 * chunkSize) chunkSize
    exact serverSlice_twoChunks_second.symm
  · unfold completeTask
    rw [fetchMoreDigits_ok_ne _ _ (isEmpty_replicate_chunkSize '2')]
    rw [if_neg (show ¬ (((Batch.mk ts1 0).pending.erase
        (FetchTask.mk (1 + 1 * chunkSize) chunkSize)).isEmpty = true) from by decide)]
    rw [show ((List.replicate chunkSize '2', initClientState.hasMoreDigits).1 :
      List Char) = List.replicate chunkSize '2' from rfl]
    rw [show (Batch.mk ts1 0).fetchedSoFar = 0 from rfl]
    rw [List.length_replicate, Nat.zero_add]
    rw [show (Batch.mk ts1 0).pending = ts1 from rfl]
    apply clientState_ext
    case h1 => rfl
    case h2 => rfl
    case h3 =>
      show initClientState.prefetchedDigits ++ List.replicate chunkSize '2' =
        sB1.prefetchedDigits
      rw [show initClientState.prefetchedDigits = ([] : List Char) from rfl]
      exact List.nil_append _
    case h4 => rfl
    case h5 => rfl
    case h6 => rfl
    case h7 => rfl
    case h8 => rfl
    case h9 => rfl

theorem sB1_buffer_not_empty : ¬ (sB1.prefetchedDigits.isEmpty = true) := by
  rw [show sB1.prefetchedDigits = List.replicate chunkSize '2' from rfl]
  rw [isEmpty_replicate_chunkSize]
  exact Bool.false_ne_true

theorem stepB2 : Step seqTwoChunks sB1 sB2 := by
  have heq : addDigitsToDisplay sB1 = sB2 := by
    rw [addDigitsToDisplay_of_queue_ne sB1 (by decide)]
    rw [if_neg sB1_buffer_not_empty]
    rw [show sB1.prefetchedDigits = List.replicate chunkSize '2' from rfl]
    rw [List.length_replicate, min_self]
    rw [List.take_replicate, min_self, List.drop_replicate, Nat.sub_self]
    rw [show sB1.displayed = ([] : List Char) from rfl]
    apply clientState_ext
    case h1 => rfl
    case h2 => rfl
    case h3 => rfl
    case h4 => rfl
    case h5 => rfl
    case h6 => rfl
    case h7 => rfl
    case h8 => rfl
    case h9 =>
      show ([] : List Char) ++ List.replicate chunkSize '2' = sB2.displayed
      exact List.nil_append _
  exact heq ▸ Step.drain sB1

/-- C1 fails on the code: task completions append to the buffer in
completion order with no reassembly by offset, so when the second task
of the initial round completes before the first, the buffer is the
second chunk of the sequence while `[consumedPosition, nextFetchPosition)`
is empty, and draining renders the second chunk at positions
`[1, 100001)` — the drained output in drain order is not a prefix of the
sequence. -/
theorem c1_bug :
    Reachable seqTwoChunks sB1 ∧
    sB1.prefetchedDigits ≠
      sliceOf seqTwoChunks sB1.currentPosition sB1.nextFetchPosition ∧
    Reachable seqTwoChunks sB2 ∧
    sB2.displayed ≠ sliceOf seqTwoChunks 1 sB2.currentPosition := by
  refine ⟨Relation.ReflTransGen.single stepB1, ?_, ?_, ?_⟩
  · intro h
    have hlen := congrArg List.length h
    rw [show sB1.prefetchedDigits = List.replicate chunkSize '2' from rfl] at hlen
    rw [List.length_replicate] at hlen
    rw [show sliceOf seqTwoChunks sB1.currentPosition sB1.nextFetchPosition =
      List.take 0 (List.drop 1 seqTwoChunks) from rfl] at hlen
    rw [List.take_zero] at hlen
    exact absurd hlen (by decide)
  · exact Relation.ReflTransGen.tail (Relation.ReflTransGen.single stepB1) stepB2
  · intro h
    have hhead := congrArg List.head? h
    rw [show sB2.displayed = List.replicate chunkSize '2' from rfl] at hhead
    rw [show sliceOf seqTwoChunks 1 sB2.currentPosition =
        List.replicate chunkSize '1' from ?_] at hhead
    · rw [List.head?_replicate, List.head?_replicate] at hhead
      rw [if_neg (by decide), if_neg (by decide)] at hhead
      exact absurd (Option.some.inj hhead) (by decide)
    · show sliceOf seqTwoChunks 1 (1 + chunkSize) = List.replicate chunkSize '1'
      unfold sliceOf seqTwoChunks
      rw [show 1 + chunkSize - 1 = chunkSize from by omega]
      rw [show (1 : Nat) = 0 + 1 from rfl, List.drop_succ_cons, List.drop_zero]
      exact List.take_left' (List.length_replicate chunkSize '1')

theorem serverSlice_tenChunks (k : Nat) (hk : k < prefetchThreshold) :
    serverSlice seqTenChunks (1 + k * chunkSize) chunkSize =
      List.replicate chunkSize '1' := by
  unfold serverSlice seqTenChunks
  rw [show 1 + k * chunkSize = k * chunkSize + 1 from by omega]
  rw [List.drop_succ_cons, List.drop_replicate, List.take_replicate]
  congr 1
  simp only [chunkSize, MAX_RANGE, prefetchThreshold] at hk ⊢
  omega

theorem ts1_drop_cons (k : Nat) (hk : k < prefetchThreshold) :
    ts1.drop k = FetchTask.mk (1 + k * chunkSize) chunkSize :: ts1.drop (k + 1) := by
  have hlen : ts1.length = prefetchThreshold := by simp [ts1]
  rw [List.drop_eq_getElem_cons (by rw [hlen]; exact hk)]
  congr 1
  simp [ts1, List.getElem_map, List.getElem_range]

theorem stepC_fetch (k : Nat) (hk : k + 1 < prefetchThreshold) :
    Step seqTenChunks (sC_fetch k) (sC_fetch (k + 1)) := by
  have hk10 : k < prefetchThreshold := by omega
  have hdrop := ts1_drop_cons k hk10
  have hlen : ts1.length = prefetchThreshold := by simp [ts1]
  refine step_to seqTenChunks _ _ ⟨ts1.drop k, k * chunkSize⟩
    ⟨1 + k * chunkSize, chunkSize⟩ (.ok (List.replicate chunkSize '1')) rfl ?_ ?_ ?_
  · rw [hdrop]
    exact List.mem_cons_self _ _
  · show List.replicate chunkSize '1' =
      serverSlice seqTenChunks (1 + k * chunkSize) chunkSize
    exact (serverSlice_tenChunks k hk10).symm
  · unfold completeTask
    rw [fetchMoreDigits_ok_ne _ _ (isEmpty_replicate_chunkSize '1')]
    rw [show ((Batch.mk (ts1.drop k) (k * chunkSize)).pending.erase
        (FetchTask.mk (1 + k * chunkSize) chunkSize)) = ts1.drop (k + 1) from by
      rw [show (Batch.mk (ts1.drop k) (k * chunkSize)).pending = ts1.drop k from rfl]
      rw [hdrop, List.erase_cons_head]]
    rw [if_neg (show ¬ ((ts1.drop (k + 1)).isEmpty = true) from by
      rw [List.isEmpty_iff, List.drop_eq_nil_iff]
      omega)]
    apply clientState_ext
    case h1 => rfl
    case h2 => rfl
    case h3 =>
      show List.replicate (k * chunkSize) '1' ++ List.replicate chunkSize '1' =
        List.replicate ((k + 1) * chunkSize) '1'
      rw [← List.replicate_add]
      rw [show k * chunkSize + chunkSize = (k + 1) * chunkSize from by ring]
    case h4 => rfl
    case h5 => rfl
    case h6 =>
      show some (Batch.mk (ts1.drop (k + 1))
          (k * chunkSize + (List.replicate chunkSize '1').length)) =
        some (Batch.mk (ts1.drop (k + 1)) ((k + 1) * chunkSize))
      rw [List.length_replicate]
      rw [show k * chunkSize + chunkSize = (k + 1) * chunkSize from by ring]
    case h7 => rfl
    case h8 => rfl
    case h9 => rfl

theorem stepC_last : Step seqTenChunks (sC_fetch 9) (sC_drain 0) := by
  refine step_to seqTenChunks _ _ ⟨ts1.drop 9, 9 * chunkSize⟩
    ⟨1 + 9 * chunkSize, chunkSize⟩ (.ok (List.replicate chunkSize '1')) rfl
    (by decide) ?_ ?_
  · show List.replicate chunkSize '1' =
      serverSlice seqTenChunks (1 + 9 * chunkSize) chunkSize
    exact (serverSlice_tenChunks 9 (by decide)).symm
  · unfold completeTask
    rw [fetchMoreDigits_ok_ne _ _ (isEmpty_replicate_chunkSize '1')]
    rw [show ((Batch.mk (ts1.drop 9) (9 * chunkSize)).pending.erase
        (FetchTask.mk (1 + 9 * chunkSize) chunkSize)) = ([] : List FetchTask) from by
      decide]
    rw [if_pos (show ([] : List FetchTask).isEmpty = true from rfl)]
    rw [show ((List.replicate chunkSize '1', (sC_fetch 9).hasMoreDigits).1 :
      List Char) = List.replicate chunkSize '1' from rfl]
    rw [show (sC_fetch 9).prefetchedDigits = List.replicate (9 * chunkSize) '1' from rfl]
    rw [← List.replicate_add]
    rw [List.length_replicate, List.length_replicate]
    rw [show decide (9 * chunkSize + chunkSize < chunkSize * prefetchThreshold) =
      false from by decide]
    apply clientState_ext
    case h1 => rfl
    case h2 => rfl
    case h3 => rfl
    case h4 => rfl
    case h5 => rfl
    case h6 => rfl
    case h7 => rfl
    case h8 => rfl
    case h9 => rfl

theorem sC_drain_buffer_len (j : Nat) :
    (sC_drain j).prefetchedDigits.length = (prefetchThreshold - j) * chunkSize := by
  rw [show (sC_drain j).prefetchedDigits =
    List.replicate ((prefetchThreshold - j) * chunkSize) '1' from rfl]
  exact List.length_replicate _ _

theorem stepC_drain (j : Nat) (hj : j < prefetchThreshold) :
    Step seqTenChunks (sC_drain j) (sC_drain (j + 1)) := by
  have hle : chunkSize ≤ (prefetchThreshold - j) * chunkSize := by
    have h1 : 1 ≤ prefetchThreshold - j := by
      simp only [prefetchThreshold] at hj ⊢
      omega
    calc chunkSize = 1 * chunkSize := (one_mul _).symm
    _ ≤ (prefetchThreshold - j) * chunkSize := Nat.mul_le_mul_right _ h1
  have heq : addDigitsToDisplay (sC_drain j) = sC_drain (j + 1) := by
    rw [addDigitsToDisplay_of_queue_ne (sC_drain j) (show (sC_drain j).queueLen ≠ 0 from by
      rw [show (sC_drain j).queueLen = prefetchThreshold from rfl]
      decide)]
    rw [if_neg (show ¬ ((sC_drain j).prefetchedDigits.isEmpty = true) from by
      rw [show (sC_drain j).prefetchedDigits =
        List.replicate ((prefetchThreshold - j) * chunkSize) '1' from rfl]
      rw [List.isEmpty_replicate]
      simp only [decide_eq_true_eq, chunkSize, prefetchThreshold] at hj ⊢
      omega)]
    have hmin : min chunkSize ((sC_drain j).prefetchedDigits.length) = chunkSize := by
      rw [sC_drain_buffer_len]
      exact min_eq_left hle
    apply clientState_ext
    case h1 =>
      show (sC_drain j).currentPosition +
          min chunkSize ((sC_drain j).prefetchedDigits.length) =
        (sC_drain (j + 1)).currentPosition
      rw [hmin]
      show 1 + j * chunkSize + chunkSize = 1 + (j + 1) * chunkSize
      ring
    case h2 => rfl
    case h3 =>
      show (sC_drain j).prefetchedDigits.drop
          (min chunkSize ((sC_drain j).prefetchedDigits.length)) =
        (sC_drain (j + 1)).prefetchedDigits
      rw [hmin]
      rw [show (sC_drain j).prefetchedDigits =
        List.replicate ((prefetchThreshold - j) * chunkSize) '1' from rfl]
      rw [List.drop_replicate]
      rw [show (prefetchThreshold - j) * chunkSize - chunkSize =
        (prefetchThreshold - (j + 1)) * chunkSize from by
          simp only [chunkSize, prefetchThreshold] at hj ⊢
          omega]
      rfl
    case h4 => rfl
    case h5 => rfl
    case h6 => rfl
    case h7 => rfl
    case h8 => rfl
    case h9 =>
      show (sC_drain j).displayed ++ (sC_drain j).prefetchedDigits.take
          (min chunkSize ((sC_drain j).prefetchedDigits.length)) =
        (sC_drain (j + 1)).displayed
      rw [hmin]
      rw [show (sC_drain j).prefetchedDigits =
        List.replicate ((prefetchThreshold - j) * chunkSize) '1' from rfl]
      rw [List.take_replicate, min_eq_left hle]
      rw [show (sC_drain j).displayed = List.replicate (j * chunkSize) '1' from rfl]
      rw [← List.replicate_add]
      rw [show j * chunkSize + chunkSize = (j + 1) * chunkSize from by ring]
      rfl
  have hstep : Step seqTenChunks (sC_drain j) (addDigitsToDisplay (sC_drain j)) :=
    Step.drain (sC_drain j)
  rw [heq] at hstep
  exact hstep

theorem init_eq_sC_fetch_zero : initClientState = sC_fetch 0 := by
  apply clientState_ext
  case h1 => rfl
  case h2 => rfl
  case h3 =>
    show ([] : List Char) = List.replicate (0 * chunkSize) '1'
    simp
  case h4 => rfl
  case h5 => rfl
  case h6 =>
    show some (Batch.mk ((List.range prefetchThreshold).map
        fun i => FetchTask.mk (vars0.nextFetchPosition + i * chunkSize) chunkSize) 0) =
      some (Batch.mk (ts1.drop 0) (0 * chunkSize))
    rw [List.drop_zero, show (0 : Nat) * chunkSize = 0 from Nat.zero_mul _]
    rfl
  case h7 => rfl
  case h8 => rfl
  case h9 => rfl

theorem reach_sC_drain_six : Reachable seqTenChunks (sC_drain 6) := by
  have base : Reachable seqTenChunks (sC_fetch 0) :=
    init_eq_sC_fetch_zero ▸ Relation.ReflTransGen.refl
  have hf : Reachable seqTenChunks (sC_drain 0) :=
    .tail (.tail (.tail (.tail (.tail (.tail (.tail (.tail (.tail (.tail base
      (stepC_fetch 0 (by decide))) (stepC_fetch 1 (by decide)))
      (stepC_fetch 2 (by decide))) (stepC_fetch 3 (by decide)))
      (stepC_fetch 4 (by decide))) (stepC_fetch 5 (by decide)))
      (stepC_fetch 6 (by decide))) (stepC_fetch 7 (by decide)))
      (stepC_fetch 8 (by decide))) stepC_last
  exact .tail (.tail (.tail (.tail (.tail (.tail hf
    (stepC_drain 0 (by decide))) (stepC_drain 1 (by decide)))
    (stepC_drain 2 (by decide))) (stepC_drain 3 (by decide)))
    (stepC_drain 4 (by decide))) (stepC_drain 5 (by decide))

/-- C5 fails on the code (dead refill guard): after the first round
fills the buffer to exactly the lookahead target (so no re-prefetch is
scheduled) and six drains bring it to 4 chunks — below the low-water
mark of 5 chunks — with no task in flight and digits remaining, no
refill ever happens: the guard `prefetchQueue.length === 0` is false
forever because the queue is never cleared, so the set of issued tasks
stays frozen in every future state. -/
theorem c5_bug :
    Reachable seqTenChunks (sC_drain 6) ∧
    (sC_drain 6).prefetchedDigits.length < chunkSize * 5 ∧
    (sC_drain 6).hasMoreDigits = true ∧
    (sC_drain 6).batch = none ∧
    (∀ s', Relation.ReflTransGen (Step seqTenChunks) (sC_drain 6) s' →
      s'.issued = (sC_drain 6).issued) := by
  refine ⟨reach_sC_drain_six, ?_, rfl, rfl, ?_⟩
  · show (sC_drain 6).prefetchedDigits.length < chunkSize * 5
    rw [sC_drain_buffer_len]
    decide
  · intro s' h
    exact (stalled_reach h rfl rfl (by decide)).1

/-- Witness for C5's frozen-issuance consequence: even the drain step
from the stalled state issues nothing. -/
theorem c5_bug_witness :
    (addDigitsToDisplay (sC_drain 6)).issued = (sC_drain 6).issued :=
  c5_bug.2.2.2.2 _ (Relation.ReflTransGen.single (Step.drain _))

end PiApp
